import Mathlib

/-!
Verification of the Rewind scheduling engine (`src/backend/src`).

Shallow embedding of the pure scheduling logic:
* `src/models/task.py` — the `Task` record and its derived scores;
* `src/engine/disruption_classifier.py` — severity rules and time impact;
* `src/engine/sts.py` — the four-queue short-term scheduler;
* `src/engine/lts.py` — daily planning (scoring, sorting, bin packing);
* `src/engine/task_buffer.py` — swap-in candidate search;
* `src/agents/energy_monitor.py` — energy inference;
* `src/agents/profiler_agent.py` — archetype classification.

Conventions: Python ints are `ℤ`, floats are `ℚ` (or `ℝ` where the code
uses transcendental functions), ISO-8601 deadline strings are replaced by
the number of hours remaining until the deadline relative to the (fixed)
current instant, `none` standing for an absent or unparseable string.
Python's `heapq` is modelled as a list together with an order-preserving
push; `heappop` takes the head.  Redis sets are lists in scan order.
-/

namespace Rewind

/-! ## Task model (`src/models/task.py`) -/

/-- `Task` from `src/models/task.py`, restricted to the fields the
scheduling engine reads.  `deadline` is the hours remaining until the
deadline (`(dl - now).total_seconds() / 3600`), `none` when the string is
empty or unparseable. -/
structure Task where
  taskId : String
  priority : ℤ
  energyCost : ℤ
  estimatedDuration : ℤ
  deadline : Option ℚ
  status : String
  cognitiveLoad : ℤ
deriving DecidableEq, Repr

/-- `Task.deadline_urgency`: `min(10, 10 / max(hours_remaining, 0.1))`,
`0` when the deadline is missing or unparseable. -/
def deadlineUrgency (t : Task) : ℚ :=
  match t.deadline with
  | none => 0
  | some h => min 10 (10 / max h (1/10))

/-- `Task.execution_time_score`: `min(10, 100 / max(estimated_duration, 1))`. -/
def executionTimeScore (t : Task) : ℚ :=
  min 10 (100 / (max t.estimatedDuration 1 : ℚ))

/-! ## Disruption classifier (`src/engine/disruption_classifier.py`) -/

/-- One row of `SEVERITY_RULES`. -/
structure SeverityRule where
  base : String
  escalateIfTasksAffected : Option ℕ
  escalateIfUrgent : Bool
deriving DecidableEq, Repr

/-- The metadata dict of a context-change event, restricted to the keys the
classifier reads.  `urgent` is the truthiness of `metadata.get("urgent")`. -/
structure EventMetadata where
  urgent : Bool
  freedMinutes : Option ℤ
  lostMinutes : Option ℤ
  savedMinutes : Option ℤ
deriving DecidableEq, Repr

/-- `SEVERITY_RULES` (as in `src/engine/disruption_classifier.py`;
`none` = the event type is not a key of the dict). -/
def severityRules (eventType : String) : Option SeverityRule :=
  if eventType = "meeting_ended_early" then some ⟨"minor", some 3, false⟩
  else if eventType = "new_email" then some ⟨"minor", none, true⟩
  else if eventType = "schedule_conflict" then some ⟨"major", some 4, false⟩
  else if eventType = "task_completed" then some ⟨"minor", none, false⟩
  else if eventType = "meeting_overrun" then some ⟨"major", some 3, false⟩
  else if eventType = "cancelled_meeting" then some ⟨"minor", some 0, false⟩
  else none

/-- `classify_severity(event_type, affected_task_ids, metadata)`. -/
def classifySeverity (eventType : String) (affectedTaskIds : List String)
    (metadata : EventMetadata) : String :=
  let rules := (severityRules eventType).getD ⟨"minor", none, false⟩
  let severity := rules.base
  let numAffected := affectedTaskIds.length
  let severity :=
    match rules.escalateIfTasksAffected with
    | some threshold =>
        if numAffected ≥ threshold then
          if severity = "minor" then "major"
          else if severity = "major" then "critical"
          else severity
        else severity
    | none => severity
  if rules.escalateIfUrgent ∧ metadata.urgent then
    if severity = "minor" then "major" else "critical"
  else severity

/-- `calculate_freed_minutes(event_type, metadata)`. -/
def calculateFreedMinutes (eventType : String) (metadata : EventMetadata) : ℤ :=
  if eventType = "meeting_ended_early" ∨ eventType = "cancelled_meeting" then
    max (metadata.freedMinutes.getD 15) 0
  else if eventType = "meeting_overrun" ∨ eventType = "schedule_conflict" then
    -|metadata.lostMinutes.getD 30|
  else if eventType = "task_completed" then
    max (metadata.savedMinutes.getD 0) 0
  else if eventType = "new_email" then
    if metadata.urgent then -15 else 0
  else 0

/-! ## Python's stable sort

`list.sort(key=k, reverse=True)` is a stable sort into descending key
order.  We model it by stable insertion: an element is inserted after
every earlier element whose key is `≥` its own. -/

/-- Stable descending insertion: place `a` before the first element whose
key is `≤ k a` (so after every strictly greater key, and after no equal
key of an earlier element). -/
def insertDescBy {α : Type} {K : Type} [LinearOrder K] (k : α → K) (a : α) :
    List α → List α
  | [] => [a]
  | b :: l => if k b ≤ k a then a :: b :: l else b :: insertDescBy k a l

/-- Stable sort into descending key order (Python `sort(key=k, reverse=True)`). -/
def sortDescBy {α : Type} {K : Type} [LinearOrder K] (k : α → K) :
    List α → List α
  | [] => []
  | a :: l => insertDescBy k a (sortDescBy k l)

/-- Descending sortedness with respect to a key. -/
def DescSortedBy {α : Type} {K : Type} [LinearOrder K] (k : α → K)
    (l : List α) : Prop :=
  l.Pairwise (fun a b => k b ≤ k a)

/-! ## Short-Term Scheduler (`src/engine/sts.py`) -/

/-- `_QueueEntry`: `sort_key` compares, the task rides along. -/
structure QueueEntry where
  sortKey : ℚ
  task : Task
deriving DecidableEq, Repr

/-- `heapq.heappush` on a queue whose pop order is modelled by list order:
insert keeping ascending `sort_key` order (ties: after existing equals,
like any valid heap). -/
def heappush (q : List QueueEntry) (e : QueueEntry) : List QueueEntry :=
  match q with
  | [] => [e]
  | b :: rest => if e.sortKey < b.sortKey then e :: b :: rest
                 else b :: heappush rest e

/-- The scheduler state: the four priority queues (`_queues`), the current
task and the delegation queue. -/
structure STSState where
  q0 : List QueueEntry
  q1 : List QueueEntry
  q2 : List QueueEntry
  q3 : List QueueEntry
  current : Option Task
  delegation : List Task
deriving DecidableEq, Repr

/-- `ShortTermScheduler()`: all queues empty. -/
def emptySTS : STSState := ⟨[], [], [], [], none, []⟩

/-- Read `self._queues[p]` (the queues dict is keyed by 0, 1, 2, 3). -/
def stsQueues (st : STSState) : ℕ → List QueueEntry
  | 0 => st.q0
  | 1 => st.q1
  | 2 => st.q2
  | _ => st.q3

/-- Write `self._queues[p]`.  Python raises `KeyError` for a priority
outside 0‥3; every use below classifies into 0‥3 first, so the catch-all
(no-op) branch is never reached from the code paths we verify. -/
def setQueue (st : STSState) (p : ℤ) (q : List QueueEntry) : STSState :=
  if p = 0 then { st with q0 := q }
  else if p = 1 then { st with q1 := q }
  else if p = 2 then { st with q2 := q }
  else if p = 3 then { st with q3 := q }
  else st

/-- Read counterpart of `setQueue`, keyed by `ℤ` like Python's dict. -/
def getQueue (st : STSState) (p : ℤ) : List QueueEntry :=
  if p = 0 then st.q0
  else if p = 1 then st.q1
  else if p = 2 then st.q2
  else if p = 3 then st.q3
  else []

/-- `ShortTermScheduler._classify_priority(task)`. -/
def classifyPriority (t : Task) : ℤ :=
  if t.priority ≠ 2 then t.priority
  else
    match t.deadline with
    | some hoursLeft =>
        if hoursLeft ≤ 2 then 0
        else if hoursLeft ≤ 24 then 1
        else if t.cognitiveLoad ≤ 1 ∧ t.energyCost ≤ 1 then 3
        else t.priority
    | none =>
        if t.cognitiveLoad ≤ 1 ∧ t.energyCost ≤ 1 then 3
        else t.priority

/-- `ShortTermScheduler.enqueue(task)`.  Python mutates `task.priority`
in place and pushes the same object; we return the mutated task alongside
the new state. -/
def stsEnqueue (st : STSState) (t : Task) : STSState × Task :=
  let priority := classifyPriority t
  let t2 := { t with priority := priority }
  let sortKey := -(deadlineUrgency t2)
  (setQueue st priority (heappush (getQueue st priority) ⟨sortKey, t2⟩), t2)

/-- The `while queue:` loop of `dequeue` inside one priority class: pop
entries until one fits the energy budget, accumulating the skipped ones,
then push the skipped entries back (`for s in skipped: heappush(queue, s)`).
Returns the found task (if any) and the queue left behind. -/
def dequeueScan (energyLevel : ℤ) :
    List QueueEntry → List QueueEntry → Option Task × List QueueEntry
  | [], skipped => (none, skipped.foldl heappush [])
  | en :: rest, skipped =>
      if en.task.energyCost ≤ energyLevel then
        (some en.task, skipped.foldl heappush rest)
      else dequeueScan energyLevel rest (skipped ++ [en])

/-- `ShortTermScheduler.dequeue(energy_level)`: scan P0 → P3. -/
def stsDequeue (st : STSState) (energyLevel : ℤ) : Option Task × STSState :=
  match dequeueScan energyLevel st.q0 [] with
  | (some t, q) => (some t, { st with q0 := q })
  | (none, r0) =>
  match dequeueScan energyLevel st.q1 [] with
  | (some t, q) => (some t, { st with q0 := r0, q1 := q })
  | (none, r1) =>
  match dequeueScan energyLevel st.q2 [] with
  | (some t, q) => (some t, { st with q0 := r0, q1 := r1, q2 := q })
  | (none, r2) =>
  match dequeueScan energyLevel st.q3 [] with
  | (some t, q) => (some t, { st with q0 := r0, q1 := r1, q2 := r2, q3 := q })
  | (none, r3) => (none, { st with q0 := r0, q1 := r1, q2 := r2, q3 := r3 })

/-- `ShortTermScheduler.preempt(urgent_task, energy_level)`.  (The
`energy_level` parameter is accepted and unused, as in the code.) -/
def stsPreempt (st : STSState) (urgentTask : Task) (_energyLevel : ℤ) :
    STSState × Option Task :=
  match st.current with
  | none => ({ st with current := some urgentTask }, none)
  | some currentTask =>
      let currentPriority := currentTask.priority
      let urgentPriority := classifyPriority urgentTask
      if urgentPriority < currentPriority then
        let preempted := { currentTask with status := "active" }
        let st2 := (stsEnqueue st preempted).1
        let preempted2 := (stsEnqueue st preempted).2
        ({ st2 with current := some urgentTask }, some preempted2)
      else
        ((stsEnqueue st urgentTask).1, none)

/-- `ShortTermScheduler.total_count`. -/
def stsTotalCount (st : STSState) : ℕ :=
  st.q0.length + st.q1.length + st.q2.length + st.q3.length

/-! ## Long-Term Scheduler (`src/engine/lts.py`) -/

/-- Python `int(...)` on a float: truncation toward zero. -/
def pyTrunc (q : ℚ) : ℤ := if q < 0 then -⌊-q⌋ else ⌊q⌋

/-- `task.estimated_duration = int(task.estimated_duration * estimation_bias)`. -/
def inflateDuration (estimationBias : ℚ) (t : Task) : Task :=
  { t with estimatedDuration := pyTrunc ((t.estimatedDuration : ℚ) * estimationBias) }

/-- `priority_scores = {0: 10, 1: 7, 2: 4, 3: 1}` with `.get(priority, 4)`. -/
def priorityScore (p : ℤ) : ℚ :=
  if p = 0 then 10 else if p = 1 then 7 else if p = 2 then 4
  else if p = 3 then 1 else 4

/-- The `peak_score` computed inside `_score_tasks`: 8 for cognitive_load
≥ 4, 3 for ≤ 2, else the neutral 5.  (The code assigns these regardless
of the current hour: the `is_peak` flag it computes is never read.) -/
def peakAlignmentScore (t : Task) : ℚ :=
  if t.cognitiveLoad ≥ 4 then 8
  else if t.cognitiveLoad ≤ 2 then 3
  else 5

/-- The total score `_score_tasks` assigns one task. -/
def scoreTask (t : Task) : ℚ :=
  deadlineUrgency t * 0.40 + priorityScore t.priority * 0.30
    + peakAlignmentScore t * 0.15 + executionTimeScore t * 0.15

/-- `_score_tasks(tasks, peak_hours)`.  It computes
`is_peak = now.hour in peak_hours` and then never uses it, so the result
does not depend on `nowHour` or `peakHours`. -/
def scoreTasks (tasks : List Task) (peakHours : List ℕ) (nowHour : ℕ) :
    List (Task × ℚ) :=
  let _isPeak := decide (nowHour ∈ peakHours)
  tasks.map (fun t => (t, scoreTask t))

/-- The bin-packing loop of `plan_day`: walk the scored list, skip a task
when it would overflow the remaining budget (`continue` — keep scanning),
otherwise select it and consume its duration. -/
def pack (availableMinutes : ℤ) :
    List (Task × ℚ) → ℤ → List Task
  | [], _ => []
  | (t, _) :: rest, usedMinutes =>
      if usedMinutes + t.estimatedDuration > availableMinutes then
        pack availableMinutes rest usedMinutes
      else
        t :: pack availableMinutes rest (usedMinutes + t.estimatedDuration)

/-- The tasks `plan_day` selects, starting from the backlog read from
Redis (given here as a list). -/
def planDaySelected (backlog : List Task) (availableHours : ℤ)
    (estimationBias : ℚ) (peakHours : List ℕ) (nowHour : ℕ) : List Task :=
  if backlog.isEmpty then []
  else
    let backlog2 := backlog.map (inflateDuration estimationBias)
    let scored := sortDescBy (fun x => x.2) (scoreTasks backlog2 peakHours nowHour)
    pack (availableHours * 60) scored 0

/-- Sum of the `estimated_duration` fields of a list of tasks. -/
def sumDurations (tasks : List Task) : ℤ :=
  (tasks.map (·.estimatedDuration)).sum

/-! ## Task buffer swap-in search (`src/engine/task_buffer.py`) -/

/-- The three `continue` filters of `find_swap_candidates`: keep a task iff
it is backlog, fits the available minutes and fits the energy budget. -/
def swapEligible (availableMinutes energyLevel : ℤ) (t : Task) : Bool :=
  decide (t.status = "backlog" ∧ t.estimatedDuration ≤ availableMinutes
    ∧ t.energyCost ≤ energyLevel)

/-- `find_swap_candidates(available_minutes, energy_level, peak_hours)`.
`buffer` is the concatenation of the bucket scans in scan order.  The
code first sorts by deadline urgency (descending, stable) and then — only
when `peak_hours` is non-empty and the current hour is a peak hour —
re-sorts by `(cognitive_load, deadline_urgency)` descending (stable). -/
def findSwapCandidates (availableMinutes energyLevel : ℤ) (nowHour : ℕ)
    (peakHours : List ℕ) (buffer : List Task) : List Task :=
  let candidates := buffer.filter (swapEligible availableMinutes energyLevel)
  let candidates2 := sortDescBy deadlineUrgency candidates
  if peakHours ≠ [] then
    if nowHour ∈ peakHours then
      sortDescBy (fun t => toLex (t.cognitiveLoad, deadlineUrgency t)) candidates2
    else candidates2
  else candidates2

/-- The ranking key of the sort the SPEC describes (claim C6), non-peak
case: deadline urgency descending, ties by shorter duration, then id. -/
def specRankKeyOffPeak (t : Task) : ℚ ×ₗ (ℤᵒᵈ ×ₗ Stringᵒᵈ) :=
  toLex (deadlineUrgency t,
    toLex (OrderDual.toDual t.estimatedDuration, OrderDual.toDual t.taskId))

/-- The ranking key of the sort the SPEC describes (claim C6), peak case:
cognitive load, then urgency, descending; ties by shorter duration, then id. -/
def specRankKeyPeak (t : Task) : ℤ ×ₗ (ℚ ×ₗ (ℤᵒᵈ ×ₗ Stringᵒᵈ)) :=
  toLex (t.cognitiveLoad, specRankKeyOffPeak t)

/-- Modelled from the spec (claim C6's words, for comparison with the
code): `find_swap_in_candidates` with ties broken by shorter estimated
duration first, then by task id. -/
def findSwapInCandidatesSpec (availableMinutes energyLevel : ℤ) (nowHour : ℕ)
    (peakHours : List ℕ) (buffer : List Task) : List Task :=
  let candidates := buffer.filter (swapEligible availableMinutes energyLevel)
  if nowHour ∈ peakHours then sortDescBy specRankKeyPeak candidates
  else sortDescBy specRankKeyOffPeak candidates

/-! ## Energy monitor (`src/agents/energy_monitor.py`) -/

/-- One member of the `energy:completions` sorted set: its score
(timestamp) and, when the `"task_id:actual:estimated"` payload splits
into at least three parts with parseable floats, the actual and
estimated minutes. -/
structure CompletionEntry where
  ts : ℚ
  parsed : Option (ℚ × ℚ)
deriving DecidableEq, Repr

/-- `VELOCITY_WINDOW_SECONDS = 2 * 60 * 60`. -/
def velocityWindowSeconds : ℚ := 2 * 60 * 60

/-- `USER_REPORTED_DECAY_SECONDS = 2 * 60 * 60`. -/
def userReportedDecaySeconds : ℚ := 2 * 60 * 60

/-- `INACTIVITY_THRESHOLD_SECONDS = 30 * 60`. -/
def inactivityThresholdSeconds : ℚ := 30 * 60

/-- `r.zrangebyscore(COMPLETIONS_KEY, now - window, now)` (inclusive). -/
def recentCompletions (now : ℚ) (store : List CompletionEntry) :
    List CompletionEntry :=
  store.filter (fun c =>
    decide (now - velocityWindowSeconds ≤ c.ts ∧ c.ts ≤ now))

/-- The timestamp of `r.zrange(COMPLETIONS_KEY, -1, -1)`: the greatest
score in the set. -/
def latestTs : List CompletionEntry → Option ℚ
  | [] => none
  | c :: cs =>
      match latestTs cs with
      | none => some c.ts
      | some t => some (max c.ts t)

/-- The accumulation loop over parsed completion entries:
`(total_actual, total_estimated, count)`. -/
def completionSums (entries : List CompletionEntry) : ℚ × ℚ × ℕ :=
  entries.foldl
    (fun acc c =>
      match c.parsed with
      | some (actual, estimated) => (acc.1 + actual, acc.2.1 + estimated, acc.2.2 + 1)
      | none => acc)
    (0, 0, 0)

/-- `_get_velocity_adjustment(r)`: `(adjustment, completion_count)`. -/
def getVelocityAdjustment (now : ℚ) (store : List CompletionEntry) : ℤ × ℕ :=
  let entries := recentCompletions now store
  if entries.isEmpty then
    if store.length > 0 then
      match latestTs store with
      | some lastTs =>
          if now - lastTs > inactivityThresholdSeconds then (-1, 0) else (0, 0)
      | none => (0, 0)
    else (0, 0)
  else
    let sums := completionSums entries
    if sums.2.2 = 0 ∨ sums.2.1 = 0 then (0, 0)
    else if sums.1 / sums.2.1 < 0.8 then (1, sums.2.2)
    else if sums.1 / sums.2.1 > 1.3 then (-1, sums.2.2)
    else (0, sums.2.2)

/-- `_get_user_reported(r)`: the user-reported value (with its store
timestamp) filtered by the 2-hour decay window; returns
`(level_or_none, age)`. -/
def getUserReported (now : ℚ) (userReported : Option (ℤ × ℚ)) :
    Option ℤ × ℚ :=
  match userReported with
  | none => (none, 0)
  | some (reported, reportedTs) =>
      let age := now - reportedTs
      if age > userReportedDecaySeconds then (none, age)
      else (some reported, age)

/-- Python's `round` to an integer: nearest, ties to even. -/
def roundHalfEven (q : ℚ) : ℤ :=
  if q - ⌊q⌋ < 1/2 then ⌊q⌋
  else if q - ⌊q⌋ > 1/2 then ⌊q⌋ + 1
  else if Even ⌊q⌋ then ⌊q⌋ else ⌊q⌋ + 1

/-- Python's `round(q, 2)`. -/
def pyRound2 (q : ℚ) : ℚ := (roundHalfEven (q * 100) : ℚ) / 100

/-- The `EnergyLevel` message fields `_compute_energy` fills in. -/
structure EnergyLevelMsg where
  level : ℤ
  confidence : ℚ
  source : String
deriving DecidableEq, Repr

/-- `_get_time_based_energy(hour)`: `curve[hour % 24]`. -/
def timeBasedEnergy (curve : ℕ → ℤ) (hour : ℕ) : ℤ := curve (hour % 24)

/-- `_compute_energy(r)`.  Inputs: the current epoch seconds and hour of
day, the user-reported `(value, timestamp)` pair when both Redis keys
exist, the profiler-curve flag, the energy curve and the completions
store. -/
def computeEnergy (now : ℚ) (hour : ℕ) (userReported : Option (ℤ × ℚ))
    (hasProfilerCurve : Bool) (curve : ℕ → ℤ)
    (store : List CompletionEntry) : EnergyLevelMsg :=
  match getUserReported now userReported with
  | (some userLevel, age) =>
      let decayFactor := 1 - age / userReportedDecaySeconds
      let confidence := 1/2 + 2/5 * decayFactor
      ⟨max 1 (min 5 userLevel), pyRound2 confidence, "user_reported"⟩
  | (none, _) =>
      let baseLevel := timeBasedEnergy curve hour
      let adj := getVelocityAdjustment now store
      let finalLevel := max 1 (min 5 (baseLevel + adj.1))
      if hasProfilerCurve ∧ adj.2 ≥ 3 then
        ⟨finalLevel, pyRound2 (4/5), "inferred"⟩
      else if hasProfilerCurve then
        ⟨finalLevel, pyRound2 (7/10), "inferred"⟩
      else if adj.2 ≥ 3 then
        ⟨finalLevel, pyRound2 (3/5), "inferred"⟩
      else
        ⟨finalLevel, pyRound2 (2/5), "time_based"⟩

/-! ## Concrete data for witnesses and counterexamples -/

/-- A P0 task with energy cost 5. -/
def wTaskA : Task := ⟨"a", 0, 5, 30, none, "active", 3⟩

/-- A P0 task with energy cost 2. -/
def wTaskB : Task := ⟨"b", 0, 2, 30, none, "active", 3⟩

/-- An STS whose P0 queue holds `wTaskA` (more urgent) then `wTaskB`. -/
def wSTS : STSState := ⟨[⟨-1, wTaskA⟩, ⟨0, wTaskB⟩], [], [], [], none, []⟩

/-- `wSTS` after `dequeue(3)`: `wTaskA` was skipped and restored. -/
def wSTSAfter : STSState := ⟨[⟨-1, wTaskA⟩], [], [], [], none, []⟩

/-- A task whose explicitly set priority is P3. -/
def wUrgent : Task := ⟨"urg", 3, 1, 15, none, "backlog", 3⟩

/-- A P0 task standing for the currently executing one. -/
def wCurrent : Task := ⟨"cur", 0, 2, 30, none, "in_progress", 3⟩

/-- An STS executing `wCurrent` with empty queues. -/
def wSTSCur : STSState := ⟨[], [], [], [], some wCurrent, []⟩

/-- A default-priority task due in 10 hours. -/
def wDeadlineTask : Task := ⟨"d", 2, 3, 30, some 10, "backlog", 3⟩

/-- A long backlog task (50 min), no deadline. -/
def wLongTask : Task := ⟨"a", 2, 1, 50, none, "backlog", 3⟩

/-- A short backlog task (10 min), no deadline. -/
def wShortTask : Task := ⟨"b", 2, 1, 10, none, "backlog", 3⟩

/-- A high-cognitive-load task (load 4). -/
def wHighCogTask : Task := ⟨"hc", 2, 3, 30, none, "backlog", 4⟩

/-- A low-cognitive-load task (load 1). -/
def wLowCogTask : Task := ⟨"lc", 2, 1, 30, none, "backlog", 1⟩

/-- Event metadata with every key absent. -/
def emptyMeta : EventMetadata := ⟨false, none, none, none⟩

/-- Event metadata with a truthy `urgent` key. -/
def urgentMeta : EventMetadata := ⟨true, none, none, none⟩

/-! ## Profiler archetype classification (`src/agents/profiler_agent.py`)

The profiler works with Python floats and `math.exp` / `statistics.stdev`,
so this part of the embedding lives in `ℝ` (idealising float arithmetic as
exact real arithmetic) and is noncomputable. -/

/-- One entry of `daily_goals`: the keys `compute_vectors` reads
(`completion_rate`, `total_tasks`, `completed_count`, with their
defaults applied). -/
structure GoalEntry where
  completionRate : ℝ
  totalTasks : ℤ
  completedCount : ℤ

/-- The six raw (or normalized) scoring vectors. -/
structure ProfileVectors where
  completionConsistency : ℝ
  executionRate : ℝ
  growthVelocity : ℝ
  selfAwareness : ℝ
  ambitionCalibration : ℝ
  recoverySpeed : ℝ

section ProfilerReal

open Classical

/-- Python's `round(x, 4)` idealised over ℝ: nearest multiple of 1/10⁴,
ties to even. -/
noncomputable def roundHalfEvenR (x : ℝ) : ℤ :=
  if x - ⌊x⌋ < 1/2 then ⌊x⌋
  else if x - ⌊x⌋ > 1/2 then ⌊x⌋ + 1
  else if Even ⌊x⌋ then ⌊x⌋ else ⌊x⌋ + 1

/-- `round(x, 4)`. -/
noncomputable def round4R (x : ℝ) : ℝ := (roundHalfEvenR (x * 10000) : ℝ) / 10000

/-- The `_sigmoid` inside `_signal_normalize`:
`1 / (1 + exp(-clamp(T·(x - 0.5), -20, 20)))`. -/
noncomputable def sigmoidT (temperature x : ℝ) : ℝ :=
  1 / (1 + Real.exp (-(max (-20) (min 20 (temperature * (x - 1/2))))))

/-- `_signal_normalize(vectors, temperature)`: the temperature sigmoid,
rounded to 4 decimals, applied to each dimension. -/
noncomputable def signalNormalize (temperature : ℝ) (v : ProfileVectors) :
    ProfileVectors where
  completionConsistency := round4R (sigmoidT temperature v.completionConsistency)
  executionRate := round4R (sigmoidT temperature v.executionRate)
  growthVelocity := round4R (sigmoidT temperature v.growthVelocity)
  selfAwareness := round4R (sigmoidT temperature v.selfAwareness)
  ambitionCalibration := round4R (sigmoidT temperature v.ambitionCalibration)
  recoverySpeed := round4R (sigmoidT temperature v.recoverySpeed)

/-- `statistics.mean`. -/
noncomputable def listMean (l : List ℝ) : ℝ := l.sum / l.length

/-- `statistics.stdev` (sample standard deviation, n−1 denominator). -/
noncomputable def sampleStdev (l : List ℝ) : ℝ :=
  Real.sqrt (((l.map (fun x => (x - listMean l) ^ 2)).sum) / ((l.length : ℝ) - 1))

/-- `GroupingFunction.compute_vectors(daily_goals, reflection_data,
resume_data)`.  `selfAwarenessScore` stands for
`reflection_data.get("growth_indicators", {}).get("self_awareness_score", 0.3)`;
`resume_data` is never read. -/
noncomputable def computeVectors (dailyGoals : List GoalEntry)
    (selfAwarenessScore : ℝ) : ProfileVectors :=
  let rates := dailyGoals.map (·.completionRate)
  let completionConsistency :=
    if rates.length ≥ 2 then max 0 (1 - sampleStdev rates * 3) else 1/2
  let executionRate := if rates ≠ [] then rates.sum / rates.length else 1/2
  let growthVelocity :=
    if rates.length ≥ 3 then
      let firstHalf := rates.take (rates.length / 2)
      let secondHalf := rates.drop (rates.length / 2)
      let slope := secondHalf.sum / secondHalf.length
        - firstHalf.sum / firstHalf.length
      max 0 (min 1 (1/2 + slope * 2))
    else 1/2
  let totalTasks := (dailyGoals.map (·.totalTasks)).sum
  let completedTasks := (dailyGoals.map (·.completedCount)).sum
  let ambitionCalibration :=
    if totalTasks > 0 then
      max 0 (min 1 (1 - |(completedTasks : ℝ) / (totalTasks : ℝ) - 4/5| * 2))
    else 3/10
  let pairs := rates.zip rates.tail
  let badStreaks := (pairs.filter (fun p => decide (p.1 < 2/5))).length
  let recoveries :=
    (pairs.filter (fun p => decide (p.1 < 2/5 ∧ p.2 > p.1 + 1/5))).length
  let recoverySpeed :=
    if badStreaks > 0 then (recoveries : ℝ) / (max badStreaks 1 : ℝ) else 1/2
  ⟨round4R completionConsistency, round4R executionRate, round4R growthVelocity,
   round4R selfAwarenessScore, round4R ambitionCalibration, round4R recoverySpeed⟩

/-- Phases 2–3 of `classify`: the execution composite over the normalized
vectors, with consistency gated by `execution_rate < 0.50`. -/
noncomputable def execCompositeOf (n : ProfileVectors) : ℝ :=
  let effectiveConsistency :=
    if n.executionRate < 0.50 then
      n.completionConsistency * (n.executionRate * 2)
    else n.completionConsistency
  n.executionRate * 0.40 + effectiveConsistency * 0.30
    + n.ambitionCalibration * 0.15 + n.recoverySpeed * 0.15

/-- The growth composite over the normalized vectors. -/
noncomputable def growthCompositeOf (n : ProfileVectors) : ℝ :=
  n.growthVelocity * 0.40 + n.selfAwareness * 0.30
    + n.recoverySpeed * 0.15 + n.ambitionCalibration * 0.15

/-- Phases 1–4 of `GroupingFunction.classify` starting from the raw
vectors: normalize, gate, composite, threshold. -/
noncomputable def classifyFromRaw (temperature : ℝ) (raw : ProfileVectors) :
    String :=
  let n := signalNormalize temperature raw
  let execComposite := execCompositeOf n
  let growthComposite := growthCompositeOf n
  if execComposite ≥ 0.85 ∧ growthComposite ≥ 0.80 then "compounding_builder"
  else if execComposite ≥ 0.70 ∧ growthComposite < 0.50 then "reliable_operator"
  else if execComposite < 0.50 ∧ growthComposite ≥ 0.65 then "emerging_talent"
  else "at_risk"

/-- The archetype `GroupingFunction.classify` returns. -/
noncomputable def classifyArchetype (temperature : ℝ)
    (dailyGoals : List GoalEntry) (selfAwarenessScore : ℝ) : String :=
  classifyFromRaw temperature (computeVectors dailyGoals selfAwarenessScore)

end ProfilerReal

/-! ## Lemmas about the stable descending sort -/

theorem insertDescBy_perm {α K : Type} [LinearOrder K] (k : α → K) (a : α) :
    ∀ l : List α, (insertDescBy k a l).Perm (a :: l) := by
  intro l
  induction l with
  | nil => simp [insertDescBy]
  | cons b l ih =>
      by_cases h : k b ≤ k a
      · simp [insertDescBy, h]
      · simpa [insertDescBy, h] using ((ih.cons b).trans (List.Perm.swap a b l))

theorem sortDescBy_perm {α K : Type} [LinearOrder K] (k : α → K) :
    ∀ l : List α, (sortDescBy k l).Perm l := by
  intro l
  induction l with
  | nil => simp [sortDescBy]
  | cons a l ih =>
      exact ((insertDescBy_perm k a (sortDescBy k l)).trans (ih.cons a))

theorem mem_insertDescBy {α K : Type} [LinearOrder K] (k : α → K) (a x : α)
    (l : List α) : x ∈ insertDescBy k a l ↔ x = a ∨ x ∈ l := by
  rw [(insertDescBy_perm k a l).mem_iff, List.mem_cons]

theorem insertDescBy_sorted {α K : Type} [LinearOrder K] (k : α → K) (a : α) :
    ∀ l : List α, DescSortedBy k l → DescSortedBy k (insertDescBy k a l) := by
  intro l
  induction l with
  | nil => intro _; simp [insertDescBy, DescSortedBy]
  | cons b l ih =>
      intro hs
      rw [DescSortedBy, List.pairwise_cons] at hs
      by_cases h : k b ≤ k a
      · rw [insertDescBy, if_pos h, DescSortedBy, List.pairwise_cons]
        refine ⟨?_, ?_⟩
        · intro x hx
          rcases List.mem_cons.mp hx with rfl | hx
          · exact h
          · exact le_trans (hs.1 x hx) h
        · rw [DescSortedBy] at *
          exact List.Pairwise.cons hs.1 hs.2
      · rw [insertDescBy, if_neg h, DescSortedBy, List.pairwise_cons]
        refine ⟨?_, ih hs.2⟩
        intro x hx
        rcases (mem_insertDescBy k a x l).mp hx with rfl | hx
        · exact le_of_lt (lt_of_not_ge h)
        · exact hs.1 x hx

theorem sortDescBy_sorted {α K : Type} [LinearOrder K] (k : α → K) :
    ∀ l : List α, DescSortedBy k (sortDescBy k l) := by
  intro l
  induction l with
  | nil => simp [sortDescBy, DescSortedBy]
  | cons a l ih => exact insertDescBy_sorted k a (sortDescBy k l) ih

theorem filter_insertDescBy {α K : Type} [LinearOrder K] (k : α → K)
    (p : α → Bool) (c : K) (hc : ∀ x, p x = true → k x = c) (a : α) :
    ∀ l : List α, (insertDescBy k a l).filter p
      = if p a then a :: l.filter p else l.filter p := by
  intro l
  induction l with
  | nil => by_cases h : p a <;> simp [insertDescBy, h]
  | cons b l ih =>
      by_cases h : k b ≤ k a
      · by_cases hp : p a <;> simp [insertDescBy, if_pos h, hp]
      · have hba : k a < k b := lt_of_not_ge h
        rw [insertDescBy, if_neg h]
        by_cases hpa : p a
        · have hpb : p b = false := by
            cases hb : p b
            · rfl
            · exfalso
              rw [hc b hb, hc a hpa] at hba
              exact lt_irrefl c hba
          simp [List.filter_cons, hpb, ih, hpa]
        · by_cases hpb : p b <;>
            simp [List.filter_cons, hpb, ih, hpa]

theorem filter_sortDescBy {α K : Type} [LinearOrder K] (k : α → K)
    (p : α → Bool) (c : K) (hc : ∀ x, p x = true → k x = c) :
    ∀ l : List α, (sortDescBy k l).filter p = l.filter p := by
  intro l
  induction l with
  | nil => simp [sortDescBy]
  | cons a l ih =>
      rw [sortDescBy, filter_insertDescBy k p c hc a (sortDescBy k l), ih]
      by_cases hpa : p a <;> simp [List.filter_cons, hpa]

/-! ## Lemmas about the heap model -/

theorem heappush_perm (q : List QueueEntry) (e : QueueEntry) :
    (heappush q e).Perm (e :: q) := by
  induction q with
  | nil => simp [heappush]
  | cons b rest ih =>
      by_cases h : e.sortKey < b.sortKey
      · simp [heappush, h]
      · simpa [heappush, h] using ((ih.cons b).trans (List.Perm.swap e b rest))

theorem mem_heappush_self (q : List QueueEntry) (e : QueueEntry) :
    e ∈ heappush q e :=
  (heappush_perm q e).mem_iff.mpr (List.mem_cons_self e q)

theorem foldl_heappush_perm (sk : List QueueEntry) :
    ∀ q : List QueueEntry, (sk.foldl heappush q).Perm (q ++ sk) := by
  induction sk with
  | nil => intro q; simp
  | cons s sk ih =>
      intro q
      have h1 : (sk.foldl heappush (heappush q s)).Perm (heappush q s ++ sk) :=
        ih (heappush q s)
      have h2 : (heappush q s ++ sk).Perm ((s :: q) ++ sk) :=
        (heappush_perm q s).append_right sk
      have h3 : ((s :: q) ++ sk).Perm (q ++ s :: sk) := List.perm_middle.symm
      simpa [List.foldl_cons] using (h1.trans (h2.trans h3))

/-! ## Claim C3 — cancelled_meeting severity -/

/-- C3.  The claim says `classify_severity` returns `minor` for every
`cancelled_meeting` event.  The code's rules table sets
`escalate_if_tasks_affected: 0` for `cancelled_meeting`, and since
`len(affected_task_ids) >= 0` always holds, the minor base severity is
escalated to `major` on every `cancelled_meeting` event — even with no
affected tasks.  (The time impact is `+metadata.freed_minutes` clamped at
0, default 15, as the claim says.)  This theorem evaluates the code at
the failing input. -/
theorem c3_cancelled_meeting_escalates :
    classifySeverity "cancelled_meeting" [] emptyMeta = "major"
    ∧ (∀ ids meta, classifySeverity "cancelled_meeting" ids meta = "major")
    ∧ calculateFreedMinutes "cancelled_meeting" emptyMeta = 15
    ∧ calculateFreedMinutes "cancelled_meeting" ⟨false, some 60, none, none⟩ = 60 := by
  refine ⟨by decide, ?_, by decide, by decide⟩
  intro ids meta
  simp [classifySeverity, severityRules]

/-! ## Claim C4 — peak alignment ignores the peak window -/

/-- C4.  The claim (and the spec) say `peak_alignment` is 8 / 3 only
during the peak window and 5 outside it.  The code computes
`is_peak = now.hour in peak_hours` and never reads it: the score a task
receives is independent of the hour and of `peak_hours`, and a task with
`cognitive_load = 4` scores `peak_alignment = 8` even at hour 12, which
is not in the default peak hours `[9, 10, 14, 15]`. -/
theorem c4_peak_alignment_ignores_window :
    (∀ tasks peakHours h1 h2, scoreTasks tasks peakHours h1 = scoreTasks tasks peakHours h2)
    ∧ (∀ tasks peaks1 peaks2 h, scoreTasks tasks peaks1 h = scoreTasks tasks peaks2 h)
    ∧ peakAlignmentScore wHighCogTask = 8
    ∧ peakAlignmentScore wLowCogTask = 3
    ∧ ((9 : ℕ) :: 10 :: 14 :: 15 :: []).contains 12 = false
    ∧ scoreTask wHighCogTask = 29/10 := by
  refine ⟨fun tasks peakHours h1 h2 => rfl, fun tasks p1 p2 h => rfl,
    by decide, by decide, by decide, ?_⟩
  norm_num [scoreTask, deadlineUrgency, priorityScore, peakAlignmentScore,
    executionTimeScore, wHighCogTask]

/-! ## Claim C7 — slack_urgent_message -/

/-- C7 counterexample.  The claim says a `slack_urgent_message` whose
metadata marks it urgent is escalated to `major`; the code has no
`slack_urgent_message` entry in `SEVERITY_RULES`, so the default rule
(base `minor`, no escalation) applies and the urgent flag is ignored. -/
theorem c7_counterexample :
    classifySeverity "slack_urgent_message" [] urgentMeta = "minor" := by
  decide

/-- C7 (amended).  For every `slack_urgent_message` event the severity is
`minor` — whether or not the metadata marks it urgent — and the freed
minutes are 0. -/
theorem c7_slack_urgent_message_minor (ids : List String) (meta : EventMetadata) :
    classifySeverity "slack_urgent_message" ids meta = "minor"
    ∧ calculateFreedMinutes "slack_urgent_message" meta = 0 := by
  constructor
  · simp [classifySeverity, severityRules]
  · simp [calculateFreedMinutes]

/-! ## Claim C5 — preempt -/

/-- C5 counterexample.  The claim says that when no current task exists,
`preempt` enqueues the urgent task and returns none.  In the code the
no-current branch installs the urgent task as the current task and
enqueues nothing: all queues stay empty (`total_count = 0`, where the
claim's behaviour would leave one queued task). -/
theorem c5_counterexample :
    stsPreempt emptySTS wUrgent 5 = (⟨[], [], [], [], some wUrgent, []⟩, none)
    ∧ stsTotalCount (stsPreempt emptySTS wUrgent 5).1 = 0
    ∧ (stsPreempt emptySTS wUrgent 5).1.current = some wUrgent := by
  decide

/-- C5 (amended).  `preempt(urgent, energy_level)`:
* no current task → the urgent task becomes the current task (it is not
  enqueued) and none is returned;
* a current task exists and `classify_priority(urgent)` is smaller (more
  urgent) than the current task's stored priority → the current task is
  marked active, saved via `enqueue` (which may reclassify it), the
  urgent task becomes current, and the preempted task is returned;
* otherwise → the urgent task is enqueued and none is returned. -/
theorem c5_preempt (st : STSState) (u : Task) (e : ℤ) :
    (st.current = none →
      stsPreempt st u e = ({ st with current := some u }, none))
    ∧ (∀ cur, st.current = some cur → classifyPriority u < cur.priority →
      stsPreempt st u e =
        ({ (stsEnqueue st { cur with status := "active" }).1 with
            current := some u },
         some (stsEnqueue st { cur with status := "active" }).2))
    ∧ (∀ cur, st.current = some cur → cur.priority ≤ classifyPriority u →
      stsPreempt st u e = ((stsEnqueue st u).1, none)) := by
  refine ⟨?_, ?_, ?_⟩
  · intro h
    simp [stsPreempt, h]
  · intro cur h hlt
    simp [stsPreempt, h, if_pos hlt]
  · intro cur h hge
    simp [stsPreempt, h, if_neg (not_lt_of_ge hge)]

/-- C5 witness: a P0 current task is not preempted by a P3 task; the
P3 task is enqueued instead. -/
theorem c5_witness :
    stsPreempt wSTSCur wUrgent 5 = ((stsEnqueue wSTSCur wUrgent).1, none) :=
  (c5_preempt wSTSCur wUrgent 5).2.2 wCurrent rfl (by decide)

/-! ## Claim C10 — enqueue writes the classified priority into the task -/

/-- C10.  `enqueue` overwrites its argument's `priority` field with
`_classify_priority(task)` (the mutation is visible on the task object
itself, returned here as the second component), the entry pushed onto
the chosen queue carries that mutated task, and a task with the default
priority P2 and a deadline within 24 hours ends up P0 or P1. -/
theorem c10_enqueue_mutates_priority (st : STSState) (t : Task) :
    (stsEnqueue st t).2.priority = classifyPriority t
    ∧ (stsEnqueue st t).2 = { t with priority := classifyPriority t }
    ∧ (t.priority = 2 →
        (⟨-(deadlineUrgency (stsEnqueue st t).2), (stsEnqueue st t).2⟩ : QueueEntry)
          ∈ getQueue (stsEnqueue st t).1 (classifyPriority t))
    ∧ (∀ h : ℚ, t.priority = 2 → t.deadline = some h → h ≤ 24 →
        (stsEnqueue st t).2.priority = 0 ∨ (stsEnqueue st t).2.priority = 1) := by
  refine ⟨rfl, rfl, ?_, ?_⟩
  · intro hp
    have hmem := mem_heappush_self (getQueue st (classifyPriority t))
      ⟨-(deadlineUrgency { t with priority := classifyPriority t }),
       { t with priority := classifyPriority t }⟩
    have hrange : classifyPriority t = 0 ∨ classifyPriority t = 1
        ∨ classifyPriority t = 2 ∨ classifyPriority t = 3 := by
      unfold classifyPriority
      rw [if_neg (by simp [hp])]
      cases hd : t.deadline with
      | none =>
          by_cases hc : t.cognitiveLoad ≤ 1 ∧ t.energyCost ≤ 1 <;> simp [hc, hp]
      | some hrs =>
          by_cases h2 : hrs ≤ 2
          · simp [h2]
          · by_cases h24 : hrs ≤ 24
            · simp [h2, h24]
            · by_cases hc : t.cognitiveLoad ≤ 1 ∧ t.energyCost ≤ 1 <;>
                simp [h2, h24, hc, hp]
    have hget : getQueue (setQueue st (classifyPriority t)
        (heappush (getQueue st (classifyPriority t))
          ⟨-(deadlineUrgency { t with priority := classifyPriority t }),
           { t with priority := classifyPriority t }⟩)) (classifyPriority t)
        = heappush (getQueue st (classifyPriority t))
          ⟨-(deadlineUrgency { t with priority := classifyPriority t }),
           { t with priority := classifyPriority t }⟩ := by
      rcases hrange with hcp | hcp | hcp | hcp <;> simp [getQueue, setQueue, hcp]
    simpa [stsEnqueue, hget] using hmem
  · intro h hp hd hle
    have e1 : (stsEnqueue st t).2.priority = classifyPriority t := rfl
    rw [e1]
    unfold classifyPriority
    rw [if_neg (by simp [hp]), hd]
    by_cases h2 : h ≤ 2
    · left
      simp [h2]
    · right
      simp [h2, hle]

/-- C10 witness: the default-P2 task `wDeadlineTask`, due in 10 hours, is
reclassified on enqueue. -/
theorem c10_witness :
    (stsEnqueue emptySTS wDeadlineTask).2.priority = 0
    ∨ (stsEnqueue emptySTS wDeadlineTask).2.priority = 1 :=
  (c10_enqueue_mutates_priority emptySTS wDeadlineTask).2.2.2 10 rfl rfl
    (by norm_num)

/-! ## Claim C2 — plan_day never exceeds the budget -/

theorem sumDurations_nil : sumDurations [] = 0 := rfl

theorem sumDurations_cons (t : Task) (l : List Task) :
    sumDurations (t :: l) = t.estimatedDuration + sumDurations l := by
  simp [sumDurations]

theorem pack_sum_le (B : ℤ) :
    ∀ (l : List (Task × ℚ)) (used : ℤ), used ≤ B →
      used + sumDurations (pack B l used) ≤ B := by
  intro l
  induction l with
  | nil => intro used h; simpa [pack, sumDurations] using h
  | cons ts rest ih =>
      intro used h
      obtain ⟨t, s⟩ := ts
      by_cases hov : used + t.estimatedDuration > B
      · rw [pack, if_pos hov]
        exact ih used h
      · rw [pack, if_neg hov, sumDurations_cons]
        have := ih (used + t.estimatedDuration) (not_lt.mp hov)
        linarith

/-- C2.  The tasks `plan_day` selects sum (in post-bias
`estimated_duration`) to at most `60 · available_hours`; and the packing
loop skips a task that would overflow the remaining budget and keeps
scanning (so later, smaller tasks can still be selected). -/
theorem c2_plan_day_budget (backlog : List Task) (availableHours : ℤ)
    (estimationBias : ℚ) (peakHours : List ℕ) (nowHour : ℕ)
    (hH : 0 ≤ availableHours) :
    sumDurations
        (planDaySelected backlog availableHours estimationBias peakHours nowHour)
      ≤ 60 * availableHours
    ∧ ∀ (B used : ℤ) (t : Task) (s : ℚ) (rest : List (Task × ℚ)),
        used + t.estimatedDuration > B →
        pack B ((t, s) :: rest) used = pack B rest used := by
  constructor
  · unfold planDaySelected
    by_cases hb : backlog.isEmpty
    · rw [if_pos hb, sumDurations_nil]
      linarith
    · rw [if_neg hb]
      have h0 : (0 : ℤ) ≤ availableHours * 60 := by linarith
      have := pack_sum_le (availableHours * 60)
        (sortDescBy (fun x => x.2)
          (scoreTasks (backlog.map (inflateDuration estimationBias)) peakHours nowHour))
        0 h0
      linarith
  · intro B used t s rest hov
    rw [pack, if_pos hov]

/-- C2 witness: a one-task backlog stays within a 1-hour budget, and a
30-minute task is skipped by the packing loop when only 5 minutes
remain. -/
theorem c2_witness :
    sumDurations (planDaySelected [wTaskB] 1 1 [] 0) ≤ 60 * 1
    ∧ pack 5 [(wTaskA, 0)] 0 = pack 5 [] 0 :=
  ⟨(c2_plan_day_budget [wTaskB] 1 1 [] 0 (by decide)).1,
   (c2_plan_day_budget [wTaskB] 1 1 [] 0 (by decide)).2 5 0 wTaskA 0 []
     (by decide)⟩

/-! ## Claim C6 — swap-in candidate ranking -/

/-- C6 counterexample.  Two eligible tasks with equal deadline urgency
(both deadline-less) arrive in bucket-scan order `[long, short]`.  The
claim says ties are broken by shorter duration first (then id), i.e. the
result should be `[short, long]` (as the spec-side ranking produces);
the code's stable sort leaves them in scan order `[long, short]`. -/
theorem c6_counterexample :
    findSwapCandidates 100 5 12 [] [wLongTask, wShortTask]
      = [wLongTask, wShortTask]
    ∧ findSwapInCandidatesSpec 100 5 12 [] [wLongTask, wShortTask]
      = [wShortTask, wLongTask]
    ∧ deadlineUrgency wLongTask = deadlineUrgency wShortTask
    ∧ wShortTask.estimatedDuration < wLongTask.estimatedDuration := by
  refine ⟨?_, ?_, by decide, by decide⟩
  · decide
  · decide

/-- C6 (amended).  `find_swap_candidates` returns a permutation of the
eligible backlog tasks; when `peak_hours` is non-empty and the current
hour is a peak hour the result is sorted by `(cognitive_load,
deadline_urgency)` descending, otherwise by `deadline_urgency`
descending; and in both cases tasks with equal sort keys keep their
bucket-scan order (stable sort) — they are NOT reordered by duration or
id. -/
theorem c6_swap_candidates_ranking (availableMinutes energyLevel : ℤ)
    (nowHour : ℕ) (peakHours : List ℕ) (buffer : List Task) :
    ((findSwapCandidates availableMinutes energyLevel nowHour peakHours buffer).Perm
        (buffer.filter (swapEligible availableMinutes energyLevel)))
    ∧ (peakHours ≠ [] → nowHour ∈ peakHours →
        DescSortedBy (fun t => toLex (t.cognitiveLoad, deadlineUrgency t))
          (findSwapCandidates availableMinutes energyLevel nowHour peakHours buffer))
    ∧ (nowHour ∉ peakHours →
        DescSortedBy deadlineUrgency
          (findSwapCandidates availableMinutes energyLevel nowHour peakHours buffer))
    ∧ (peakHours = [] →
        DescSortedBy deadlineUrgency
          (findSwapCandidates availableMinutes energyLevel nowHour peakHours buffer))
    ∧ (peakHours ≠ [] → nowHour ∈ peakHours → ∀ v : ℤ ×ₗ ℚ,
        (findSwapCandidates availableMinutes energyLevel nowHour peakHours buffer).filter
            (fun t => decide (toLex (t.cognitiveLoad, deadlineUrgency t) = v))
          = (buffer.filter (swapEligible availableMinutes energyLevel)).filter
            (fun t => decide (toLex (t.cognitiveLoad, deadlineUrgency t) = v)))
    ∧ (nowHour ∉ peakHours → ∀ v : ℚ,
        (findSwapCandidates availableMinutes energyLevel nowHour peakHours buffer).filter
            (fun t => decide (deadlineUrgency t = v))
          = (buffer.filter (swapEligible availableMinutes energyLevel)).filter
            (fun t => decide (deadlineUrgency t = v))) := by
  by_cases hpe : peakHours = []
  · have hred : findSwapCandidates availableMinutes energyLevel nowHour peakHours buffer
        = sortDescBy deadlineUrgency
            (buffer.filter (swapEligible availableMinutes energyLevel)) := by
      simp [findSwapCandidates, hpe]
    have hnotin : nowHour ∉ peakHours := by simp [hpe]
    refine ⟨?_, ?_, ?_, ?_, ?_, ?_⟩
    · rw [hred]; exact sortDescBy_perm _ _
    · intro hne; exact absurd hpe hne
    · intro _; rw [hred]; exact sortDescBy_sorted _ _
    · intro _; rw [hred]; exact sortDescBy_sorted _ _
    · intro hne; exact absurd hpe hne
    · intro _ v
      rw [hred]
      exact filter_sortDescBy deadlineUrgency _ v (fun x hx => of_decide_eq_true hx) _
  · by_cases hin : nowHour ∈ peakHours
    · have hred : findSwapCandidates availableMinutes energyLevel nowHour peakHours buffer
          = sortDescBy (fun t => toLex (t.cognitiveLoad, deadlineUrgency t))
              (sortDescBy deadlineUrgency
                (buffer.filter (swapEligible availableMinutes energyLevel))) := by
        simp [findSwapCandidates, hpe, hin]
      refine ⟨?_, ?_, ?_, ?_, ?_, ?_⟩
      · rw [hred]
        exact (sortDescBy_perm _ _).trans (sortDescBy_perm _ _)
      · intro _ _; rw [hred]; exact sortDescBy_sorted _ _
      · intro hnotin; exact absurd hin hnotin
      · intro hnil; exact absurd hnil hpe
      · intro _ _ v
        rw [hred]
        rw [filter_sortDescBy (fun t => toLex (t.cognitiveLoad, deadlineUrgency t)) _ v
          (fun x hx => of_decide_eq_true hx)]
        exact filter_sortDescBy deadlineUrgency _ ((ofLex v).2)
          (fun x hx => by
            have h1 : toLex (x.cognitiveLoad, deadlineUrgency x) = v :=
              of_decide_eq_true hx
            have h2 : (x.cognitiveLoad, deadlineUrgency x) = ofLex v := by
              rw [← h1]
              rfl
            exact (congrArg Prod.snd h2.symm).symm) _
      · intro hnotin; exact absurd hin hnotin
    · have hred : findSwapCandidates availableMinutes energyLevel nowHour peakHours buffer
          = sortDescBy deadlineUrgency
              (buffer.filter (swapEligible availableMinutes energyLevel)) := by
        simp [findSwapCandidates, hpe, hin]
      refine ⟨?_, ?_, ?_, ?_, ?_, ?_⟩
      · rw [hred]; exact sortDescBy_perm _ _
      · intro _ hin2; exact absurd hin2 hin
      · intro _; rw [hred]; exact sortDescBy_sorted _ _
      · intro hnil; exact absurd hnil hpe
      · intro _ hin2; exact absurd hin2 hin
      · intro _ v
        rw [hred]
        exact filter_sortDescBy deadlineUrgency _ v (fun x hx => of_decide_eq_true hx) _

/-- C6 witness: the off-peak ranking at a concrete input — a permutation
of the eligible tasks, sorted by descending urgency. -/
theorem c6_witness :
    ((findSwapCandidates 100 5 12 [] [wLongTask, wShortTask]).Perm
        ([wLongTask, wShortTask].filter (swapEligible 100 5)))
    ∧ DescSortedBy deadlineUrgency
        (findSwapCandidates 100 5 12 [] [wLongTask, wShortTask]) :=
  ⟨(c6_swap_candidates_ranking 100 5 12 [] [wLongTask, wShortTask]).1,
   (c6_swap_candidates_ranking 100 5 12 [] [wLongTask, wShortTask]).2.2.2.1 rfl⟩

/-! ## Claim C1 — dequeue respects energy and class order -/

theorem dequeueScan_none (e : ℤ) :
    ∀ (q sk r : List QueueEntry), dequeueScan e q sk = (none, r) →
      (∀ en ∈ q, e < en.task.energyCost) ∧ r.Perm (sk ++ q) := by
  intro q
  induction q with
  | nil =>
      intro sk r h
      rw [dequeueScan] at h
      rw [Prod.mk.injEq] at h
      obtain ⟨-, hr⟩ := h
      refine ⟨by simp, ?_⟩
      rw [← hr]
      simpa using (foldl_heappush_perm sk [])
  | cons en rest ih =>
      intro sk r h
      rw [dequeueScan] at h
      by_cases hfit : en.task.energyCost ≤ e
      · rw [if_pos hfit] at h
        exact absurd h (by simp)
      · rw [if_neg hfit] at h
        obtain ⟨hall, hperm⟩ := ih (sk ++ [en]) r h
        refine ⟨?_, ?_⟩
        · intro x hx
          rcases List.mem_cons.mp hx with rfl | hx
          · exact lt_of_not_ge hfit
          · exact hall x hx
        · have heq : (sk ++ [en]) ++ rest = sk ++ en :: rest := by simp
          rwa [heq] at hperm

theorem dequeueScan_some (e : ℤ) :
    ∀ (q sk r : List QueueEntry) (t : Task), dequeueScan e q sk = (some t, r) →
      ∃ en, en ∈ q ∧ en.task = t ∧ t.energyCost ≤ e
        ∧ r.Perm (sk ++ q.erase en) := by
  intro q
  induction q with
  | nil =>
      intro sk r t h
      rw [dequeueScan] at h
      exact absurd h (by simp)
  | cons en rest ih =>
      intro sk r t h
      rw [dequeueScan] at h
      by_cases hfit : en.task.energyCost ≤ e
      · rw [if_pos hfit, Prod.mk.injEq] at h
        obtain ⟨ht, hr⟩ := h
        obtain rfl := Option.some.inj ht
        refine ⟨en, List.mem_cons_self en rest, rfl, hfit, ?_⟩
        rw [← hr, List.erase_cons_head]
        exact (foldl_heappush_perm sk rest).trans List.perm_append_comm
      · rw [if_neg hfit] at h
        obtain ⟨en2, hmem, htask, hfit2, hperm⟩ := ih (sk ++ [en]) r t h
        have hne : ¬(en == en2) := by
          simp only [beq_iff_eq]
          intro heq
          rw [heq, htask] at hfit
          exact hfit hfit2
        refine ⟨en2, List.mem_cons_of_mem _ hmem, htask, hfit2, ?_⟩
        rw [List.erase_cons, if_neg hne]
        have heq : sk ++ en :: rest.erase en2 = (sk ++ [en]) ++ rest.erase en2 := by
          simp
        rwa [← heq] at hperm

/-- C1.  `dequeue(energy_level)` scans P0 → P3.  When it returns a task:
the task fits the energy budget; it comes from the first priority class
containing a fitting task (every entry of every earlier class costs more
than the energy level); that class's queue loses exactly the popped entry
(the skipped higher-cost entries are restored — multiset equality); and
the other classes keep their entries.  When it returns none, no queued
task in any class fits. -/
theorem c1_dequeue_energy (st : STSState) (e : ℤ) :
    (∀ t st2, stsDequeue st e = (some t, st2) →
      t.energyCost ≤ e
      ∧ ∃ p, p < 4
          ∧ (∀ q, q < p → ∀ en2 ∈ stsQueues st q, e < en2.task.energyCost)
          ∧ ∃ en, en ∈ stsQueues st p ∧ en.task = t
              ∧ (stsQueues st2 p).Perm ((stsQueues st p).erase en)
              ∧ (∀ q, q < 4 → q ≠ p → (stsQueues st2 q).Perm (stsQueues st q)))
    ∧ (∀ st2, stsDequeue st e = (none, st2) →
        ∀ p, p < 4 → ∀ en ∈ stsQueues st p, e < en.task.energyCost) := by
  constructor
  · intro t st2 h
    rw [stsDequeue] at h
    rcases hq0 : dequeueScan e st.q0 [] with ⟨o0, r0⟩
    rw [hq0] at h
    cases o0 with
    | some t0 =>
        rw [Prod.mk.injEq] at h
        obtain ⟨ht, hst⟩ := h
        obtain rfl := Option.some.inj ht
        obtain ⟨en, hmem, htask, hfit, hperm⟩ := dequeueScan_some e st.q0 [] r0 t0 hq0
        subst hst
        refine ⟨hfit, 0, by omega,
          fun q hq => absurd hq (Nat.not_lt_zero q), en, hmem, htask, ?_, ?_⟩
        · simpa [stsQueues] using hperm
        · intro q hq4 hqne
          interval_cases q
          · exact absurd rfl hqne
          · exact List.Perm.refl _
          · exact List.Perm.refl _
          · exact List.Perm.refl _
    | none =>
    rcases hq1 : dequeueScan e st.q1 [] with ⟨o1, r1⟩
    rw [hq1] at h
    have hn0 := dequeueScan_none e st.q0 [] r0 hq0
    cases o1 with
    | some t1 =>
        rw [Prod.mk.injEq] at h
        obtain ⟨ht, hst⟩ := h
        obtain rfl := Option.some.inj ht
        obtain ⟨en, hmem, htask, hfit, hperm⟩ := dequeueScan_some e st.q1 [] r1 t1 hq1
        subst hst
        refine ⟨hfit, 1, by omega, ?_, en, hmem, htask, ?_, ?_⟩
        · intro q hq
          interval_cases q
          exact hn0.1
        · simpa [stsQueues] using hperm
        · intro q hq4 hqne
          interval_cases q
          · simpa [stsQueues] using hn0.2
          · exact absurd rfl hqne
          · exact List.Perm.refl _
          · exact List.Perm.refl _
    | none =>
    rcases hq2 : dequeueScan e st.q2 [] with ⟨o2, r2⟩
    rw [hq2] at h
    have hn1 := dequeueScan_none e st.q1 [] r1 hq1
    cases o2 with
    | some t2 =>
        rw [Prod.mk.injEq] at h
        obtain ⟨ht, hst⟩ := h
        obtain rfl := Option.some.inj ht
        obtain ⟨en, hmem, htask, hfit, hperm⟩ := dequeueScan_some e st.q2 [] r2 t2 hq2
        subst hst
        refine ⟨hfit, 2, by omega, ?_, en, hmem, htask, ?_, ?_⟩
        · intro q hq
          interval_cases q
          · exact hn0.1
          · exact hn1.1
        · simpa [stsQueues] using hperm
        · intro q hq4 hqne
          interval_cases q
          · simpa [stsQueues] using hn0.2
          · simpa [stsQueues] using hn1.2
          · exact absurd rfl hqne
          · exact List.Perm.refl _
    | none =>
    rcases hq3 : dequeueScan e st.q3 [] with ⟨o3, r3⟩
    rw [hq3] at h
    have hn2 := dequeueScan_none e st.q2 [] r2 hq2
    cases o3 with
    | some t3 =>
        rw [Prod.mk.injEq] at h
        obtain ⟨ht, hst⟩ := h
        obtain rfl := Option.some.inj ht
        obtain ⟨en, hmem, htask, hfit, hperm⟩ := dequeueScan_some e st.q3 [] r3 t3 hq3
        subst hst
        refine ⟨hfit, 3, by omega, ?_, en, hmem, htask, ?_, ?_⟩
        · intro q hq
          interval_cases q
          · exact hn0.1
          · exact hn1.1
          · exact hn2.1
        · simpa [stsQueues] using hperm
        · intro q hq4 hqne
          interval_cases q
          · simpa [stsQueues] using hn0.2
          · simpa [stsQueues] using hn1.2
          · simpa [stsQueues] using hn2.2
          · exact absurd rfl hqne
    | none =>
        rw [Prod.mk.injEq] at h
        exact absurd h.1 (by simp)
  · intro st2 h
    rw [stsDequeue] at h
    rcases hq0 : dequeueScan e st.q0 [] with ⟨o0, r0⟩
    rw [hq0] at h
    cases o0 with
    | some t0 => rw [Prod.mk.injEq] at h; exact absurd h.1 (by simp)
    | none =>
    rcases hq1 : dequeueScan e st.q1 [] with ⟨o1, r1⟩
    rw [hq1] at h
    cases o1 with
    | some t1 => rw [Prod.mk.injEq] at h; exact absurd h.1 (by simp)
    | none =>
    rcases hq2 : dequeueScan e st.q2 [] with ⟨o2, r2⟩
    rw [hq2] at h
    cases o2 with
    | some t2 => rw [Prod.mk.injEq] at h; exact absurd h.1 (by simp)
    | none =>
    rcases hq3 : dequeueScan e st.q3 [] with ⟨o3, r3⟩
    rw [hq3] at h
    cases o3 with
    | some t3 => rw [Prod.mk.injEq] at h; exact absurd h.1 (by simp)
    | none =>
        intro p hp en hen
        have hn0 := dequeueScan_none e st.q0 [] r0 hq0
        have hn1 := dequeueScan_none e st.q1 [] r1 hq1
        have hn2 := dequeueScan_none e st.q2 [] r2 hq2
        have hn3 := dequeueScan_none e st.q3 [] r3 hq3
        interval_cases p
        · exact hn0.1 en hen
        · exact hn1.1 en hen
        · exact hn2.1 en hen
        · exact hn3.1 en hen

/-- C1 witness: with energy 3 the scheduler skips the cost-5 task and
returns the cost-2 task from the same (first) class. -/
theorem c1_witness : wTaskB.energyCost ≤ 3 :=
  ((c1_dequeue_energy wSTS 3).1 wTaskB wSTSAfter (by decide)).1

/-! ## Claim C8 — energy computation -/

theorem computeEnergy_user_reported (now : ℚ) (hour : ℕ) (v : ℤ) (ts : ℚ)
    (hasCurve : Bool) (curve : ℕ → ℤ) (store : List CompletionEntry)
    (h : now - ts ≤ userReportedDecaySeconds) :
    computeEnergy now hour (some (v, ts)) hasCurve curve store
      = ⟨max 1 (min 5 v),
         pyRound2 (9/10 - 2/5 * ((now - ts) / userReportedDecaySeconds)),
         "user_reported"⟩ := by
  have hg : getUserReported now (some (v, ts)) = (some v, now - ts) := by
    simp [getUserReported, not_lt.mpr h]
  simp only [computeEnergy, hg]
  have harg : 1/2 + 2/5 * (1 - (now - ts) / userReportedDecaySeconds)
      = 9/10 - 2/5 * ((now - ts) / userReportedDecaySeconds) := by ring
  rw [harg]

theorem computeEnergy_level_no_user (now : ℚ) (hour : ℕ)
    (userReported : Option (ℤ × ℚ)) (hasCurve : Bool) (curve : ℕ → ℤ)
    (store : List CompletionEntry)
    (h : userReported = none
      ∨ ∃ v ts, userReported = some (v, ts) ∧ now - ts > userReportedDecaySeconds) :
    (computeEnergy now hour userReported hasCurve curve store).level
      = max 1 (min 5 (curve (hour % 24) + (getVelocityAdjustment now store).1)) := by
  have hg : (getUserReported now userReported).1 = none := by
    rcases h with rfl | ⟨v, ts, rfl, hstale⟩
    · rfl
    · simp [getUserReported, hstale]
  rcases hg2 : getUserReported now userReported with ⟨o, age⟩
  rw [hg2] at hg
  simp only at hg
  subst hg
  simp only [computeEnergy, hg2, timeBasedEnergy]
  split
  · rfl
  · split
    · rfl
    · split <;> rfl

/-- C8.  `_compute_energy`: a user report younger than the 2-hour decay
window overrides everything — level is the clamped reported value, the
source is `user_reported`, and the confidence decays affinely from 0.9
at age 0 (second conjunct) to 0.5 at age 2h (third conjunct); without a
fresh report the level is the circadian curve at the current hour plus
the velocity adjustment, clamped to [1, 5]; and the velocity adjustment
is +1 when the actual/estimated ratio over the recent completions is
below 0.8, −1 when it is above 1.3, −1 when there are no recent
completions but older ones exist and the newest is more than 30 minutes
old, and 0 otherwise. -/
theorem c8_compute_energy (now : ℚ) (hour : ℕ) (hasCurve : Bool)
    (curve : ℕ → ℤ) (store : List CompletionEntry) :
    (∀ v ts, now - ts ≤ userReportedDecaySeconds →
      computeEnergy now hour (some (v, ts)) hasCurve curve store
        = ⟨max 1 (min 5 v),
           pyRound2 (9/10 - 2/5 * ((now - ts) / userReportedDecaySeconds)),
           "user_reported"⟩)
    ∧ (∀ v, computeEnergy now hour (some (v, now)) hasCurve curve store
        = ⟨max 1 (min 5 v), 9/10, "user_reported"⟩)
    ∧ (∀ v, computeEnergy now hour (some (v, now - userReportedDecaySeconds))
          hasCurve curve store
        = ⟨max 1 (min 5 v), 1/2, "user_reported"⟩)
    ∧ (∀ userReported : Option (ℤ × ℚ),
        (userReported = none
          ∨ ∃ v ts, userReported = some (v, ts)
              ∧ now - ts > userReportedDecaySeconds) →
        (computeEnergy now hour userReported hasCurve curve store).level
          = max 1 (min 5 (curve (hour % 24) + (getVelocityAdjustment now store).1)))
    ∧ (recentCompletions now store ≠ [] →
        (completionSums (recentCompletions now store)).2.2 ≠ 0 →
        (completionSums (recentCompletions now store)).2.1 ≠ 0 →
        ((completionSums (recentCompletions now store)).1
            / (completionSums (recentCompletions now store)).2.1 < 4/5 →
          (getVelocityAdjustment now store).1 = 1)
        ∧ ((completionSums (recentCompletions now store)).1
            / (completionSums (recentCompletions now store)).2.1 > 13/10 →
          (getVelocityAdjustment now store).1 = -1)
        ∧ (4/5 ≤ (completionSums (recentCompletions now store)).1
            / (completionSums (recentCompletions now store)).2.1 →
          (completionSums (recentCompletions now store)).1
            / (completionSums (recentCompletions now store)).2.1 ≤ 13/10 →
          (getVelocityAdjustment now store).1 = 0))
    ∧ (recentCompletions now store = [] → store ≠ [] →
        ∀ lastT, latestTs store = some lastT →
        (now - lastT > inactivityThresholdSeconds →
          getVelocityAdjustment now store = (-1, 0))
        ∧ (now - lastT ≤ inactivityThresholdSeconds →
          getVelocityAdjustment now store = (0, 0)))
    ∧ (store = [] → getVelocityAdjustment now store = (0, 0)) := by
  refine ⟨?_, ?_, ?_, ?_, ?_, ?_, ?_⟩
  · intro v ts h
    exact computeEnergy_user_reported now hour v ts hasCurve curve store h
  · intro v
    rw [computeEnergy_user_reported now hour v now hasCurve curve store
      (by norm_num [userReportedDecaySeconds])]
    norm_num [pyRound2, roundHalfEven, userReportedDecaySeconds]
  · intro v
    rw [computeEnergy_user_reported now hour v (now - userReportedDecaySeconds)
      hasCurve curve store (by norm_num [userReportedDecaySeconds])]
    norm_num [pyRound2, roundHalfEven, userReportedDecaySeconds]
  · intro rep h
    exact computeEnergy_level_no_user now hour rep hasCurve curve store h
  · intro hne hcount hest
    have hie : ¬((recentCompletions now store).isEmpty = true) := by
      simpa [List.isEmpty_iff] using hne
    have hor : ¬((completionSums (recentCompletions now store)).2.2 = 0
        ∨ (completionSums (recentCompletions now store)).2.1 = 0) := by
      push_neg
      exact ⟨hcount, hest⟩
    have h08 : (0.8 : ℚ) = 4/5 := by norm_num
    have h13 : (1.3 : ℚ) = 13/10 := by norm_num
    refine ⟨?_, ?_, ?_⟩
    · intro hlt
      simp only [getVelocityAdjustment, if_neg hie, if_neg hor, h08, h13,
        if_pos hlt]
    · intro hgt
      have hnlt : ¬((completionSums (recentCompletions now store)).1
          / (completionSums (recentCompletions now store)).2.1 < 4/5) := by
        push_neg
        linarith
      simp only [getVelocityAdjustment, if_neg hie, if_neg hor, h08, h13,
        if_neg hnlt, if_pos hgt]
    · intro hge hle
      have hnlt : ¬((completionSums (recentCompletions now store)).1
          / (completionSums (recentCompletions now store)).2.1 < 4/5) := by
        push_neg
        exact hge
      have hngt : ¬((completionSums (recentCompletions now store)).1
          / (completionSums (recentCompletions now store)).2.1 > 13/10) := by
        push_neg
        exact hle
      simp only [getVelocityAdjustment, if_neg hie, if_neg hor, h08, h13,
        if_neg hnlt, if_neg hngt]
  · intro hemp hne lastT hlast
    have hie : (recentCompletions now store).isEmpty = true := by
      simp [List.isEmpty_iff, hemp]
    have hlen : store.length > 0 := List.length_pos.mpr hne
    refine ⟨?_, ?_⟩
    · intro hstale
      simp only [getVelocityAdjustment, if_pos hie, if_pos hlen, hlast,
        if_pos hstale]
    · intro hfresh
      simp only [getVelocityAdjustment, if_pos hie, if_pos hlen, hlast,
        if_neg (not_lt.mpr hfresh)]
  · intro h
    subst h
    rfl

/-- C8 witness: a level-7 report filed one hour ago clamps to 5 and its
confidence has decayed to 0.7. -/
theorem c8_witness :
    computeEnergy 10000 9 (some (7, 10000 - 3600)) true (fun _ => 3) []
      = ⟨5, 7/10, "user_reported"⟩ := by
  rw [(c8_compute_energy 10000 9 true (fun _ => 3) []).1 7 (10000 - 3600)
    (by norm_num [userReportedDecaySeconds])]
  simp only [EnergyLevelMsg.mk.injEq]
  norm_num [pyRound2, roundHalfEven, userReportedDecaySeconds]

/-! ## Claim C9 — profiler archetype classification -/

theorem roundHalfEvenR_intCast (z : ℤ) : roundHalfEvenR (z : ℝ) = z := by
  unfold roundHalfEvenR
  rw [Int.floor_intCast]
  rw [if_pos (by norm_num)]

theorem roundHalfEvenR_le_add_one (y : ℝ) : (roundHalfEvenR y : ℝ) ≤ y + 1 := by
  unfold roundHalfEvenR
  have hfl := Int.floor_le y
  split_ifs <;> push_cast <;> linarith

theorem round4R_le (x : ℝ) : round4R x ≤ x + 1/10000 := by
  unfold round4R
  have h := roundHalfEvenR_le_add_one (x * 10000)
  linarith

theorem round4R_fixed (q : ℝ) (z : ℤ) (h : q * 10000 = (z : ℝ)) :
    round4R q = q := by
  unfold round4R
  rw [h, roundHalfEvenR_intCast, ← h]
  field_simp

theorem round4R_half : round4R ((1 : ℝ)/2) = 1/2 :=
  round4R_fixed ((1 : ℝ)/2) 5000 (by norm_num)

theorem round4R_threeTenths : round4R ((3 : ℝ)/10) = 3/10 :=
  round4R_fixed ((3 : ℝ)/10) 3000 (by norm_num)

theorem sigmoidT_lt_one (temperature x : ℝ) : sigmoidT temperature x < 1 := by
  unfold sigmoidT
  have hpos := Real.exp_pos (-(max (-20) (min 20 (temperature * (x - 1/2)))))
  rw [div_lt_one (by linarith)]
  linarith

theorem sigmoidT_half (temperature : ℝ) : sigmoidT temperature (1/2) = 1/2 := by
  unfold sigmoidT
  have h1 : temperature * ((1:ℝ)/2 - 1/2) = 0 := by ring
  rw [h1, min_eq_right (by norm_num : (0:ℝ) ≤ 20),
    max_eq_right (by norm_num : (-20:ℝ) ≤ 0)]
  rw [neg_zero, Real.exp_zero]
  norm_num

theorem sigmoid8_threeTenths_le : sigmoidT 8 (3/10) ≤ 3/10 := by
  unfold sigmoidT
  have harg : (8:ℝ) * (3/10 - 1/2) = -(8/5) := by ring
  rw [harg, min_eq_right (by norm_num : -(8/5 : ℝ) ≤ 20),
    max_eq_right (by norm_num : (-20:ℝ) ≤ -(8/5)), neg_neg]
  have hexp : (7:ℝ)/3 ≤ Real.exp (8/5) := by
    have h1 : (7:ℝ)/3 ≤ Real.exp 1 := by
      have := Real.exp_one_gt_d9
      linarith
    have h2 : Real.exp 1 ≤ Real.exp (8/5) :=
      Real.exp_le_exp.mpr (by norm_num)
    linarith
  have hpos : (0:ℝ) < 1 + Real.exp (8/5) := by
    have := Real.exp_pos (8/5 : ℝ)
    linarith
  rw [div_le_div_iff₀ hpos (by norm_num : (0:ℝ) < 10)]
  linarith

theorem computeVectors_nil (s : ℝ) :
    computeVectors [] s = ⟨1/2, 1/2, 1/2, round4R s, 3/10, 1/2⟩ := by
  have h2 : round4R ((2:ℝ)⁻¹) = 2⁻¹ := by simpa using round4R_half
  simp [computeVectors, h2, round4R_threeTenths]

theorem classifyFromRaw_base (s : ℝ) :
    classifyFromRaw 8 ⟨1/2, 1/2, 1/2, s, 3/10, 1/2⟩ = "at_risk" := by
  have hcc : (signalNormalize 8 ⟨1/2, 1/2, 1/2, s, 3/10, 1/2⟩).completionConsistency
      = 1/2 := by
    show round4R (sigmoidT 8 (1/2)) = 1/2
    rw [sigmoidT_half, round4R_half]
  have her : (signalNormalize 8 ⟨1/2, 1/2, 1/2, s, 3/10, 1/2⟩).executionRate
      = 1/2 := by
    show round4R (sigmoidT 8 (1/2)) = 1/2
    rw [sigmoidT_half, round4R_half]
  have hgv : (signalNormalize 8 ⟨1/2, 1/2, 1/2, s, 3/10, 1/2⟩).growthVelocity
      = 1/2 := by
    show round4R (sigmoidT 8 (1/2)) = 1/2
    rw [sigmoidT_half, round4R_half]
  have hrec : (signalNormalize 8 ⟨1/2, 1/2, 1/2, s, 3/10, 1/2⟩).recoverySpeed
      = 1/2 := by
    show round4R (sigmoidT 8 (1/2)) = 1/2
    rw [sigmoidT_half, round4R_half]
  have hamb : (signalNormalize 8 ⟨1/2, 1/2, 1/2, s, 3/10, 1/2⟩).ambitionCalibration
      ≤ 3/10 + 1/10000 := by
    show round4R (sigmoidT 8 (3/10)) ≤ 3/10 + 1/10000
    have := round4R_le (sigmoidT 8 (3/10))
    have := sigmoid8_threeTenths_le
    linarith
  have hsa : (signalNormalize 8 ⟨1/2, 1/2, 1/2, s, 3/10, 1/2⟩).selfAwareness
      ≤ 1 + 1/10000 := by
    show round4R (sigmoidT 8 s) ≤ 1 + 1/10000
    have := round4R_le (sigmoidT 8 s)
    have := sigmoidT_lt_one 8 s
    linarith
  have hgate : ¬((signalNormalize 8 ⟨1/2, 1/2, 1/2, s, 3/10, 1/2⟩).executionRate
      < 0.50) := by
    rw [her]
    norm_num
  have hexec : execCompositeOf (signalNormalize 8 ⟨1/2, 1/2, 1/2, s, 3/10, 1/2⟩)
      < 0.50 := by
    simp only [execCompositeOf, if_neg hgate]
    rw [her, hcc, hrec]
    nlinarith [hamb]
  have hgrowth : growthCompositeOf (signalNormalize 8 ⟨1/2, 1/2, 1/2, s, 3/10, 1/2⟩)
      < 0.65 := by
    simp only [growthCompositeOf]
    rw [hgv, hrec]
    nlinarith [hamb, hsa]
  simp only [classifyFromRaw]
  rw [if_neg (by rintro ⟨h1, -⟩; norm_num at hexec; linarith)]
  rw [if_neg (by rintro ⟨h1, -⟩; norm_num at hexec; linarith)]
  rw [if_neg (by rintro ⟨-, h2⟩; linarith)]

/-- C9.  With no daily-goal data the profiler classifies the user
`at_risk` (whatever self-awareness the reflection data reports); and for
every raw input vector, `compounding_builder` is returned exactly when
the execution composite is ≥ 0.85 and the growth composite is ≥ 0.80,
the composites being computed from the temperature-8 sigmoid-normalized
vectors with consistency gated by `execution_rate` when the normalized
`execution_rate` is below 0.50. -/
theorem c9_archetype_classification (selfAwarenessScore : ℝ) :
    classifyArchetype 8 [] selfAwarenessScore = "at_risk"
    ∧ ∀ raw : ProfileVectors,
        classifyFromRaw 8 raw = "compounding_builder"
          ↔ (execCompositeOf (signalNormalize 8 raw) ≥ 0.85
              ∧ growthCompositeOf (signalNormalize 8 raw) ≥ 0.80) := by
  constructor
  · unfold classifyArchetype
    rw [computeVectors_nil]
    exact classifyFromRaw_base (round4R selfAwarenessScore)
  · intro raw
    by_cases hc : execCompositeOf (signalNormalize 8 raw) ≥ 0.85
        ∧ growthCompositeOf (signalNormalize 8 raw) ≥ 0.80
    · simp only [classifyFromRaw]
      rw [if_pos hc]
      simp [hc]
    · simp only [classifyFromRaw]
      rw [if_neg hc]
      constructor
      · intro h
        exfalso
        split_ifs at h <;> simp_all
      · intro h
        exact absurd h hc

end Rewind
